import Mathlib

/-!
Verification of the WebSocket server in `redisgl/WebSocketServer.py`:
the frame codec (`encode_bytes`, `encode_message`, `decode_message`),
the handshake processing and the per-connection session loop of
`handle_client`, modelled as pure functions over byte lists
(`List Nat`, each element one byte value).
-/

namespace WS

/-- Bytes of an ASCII string literal (each character's code point, which
for the ASCII constants of the source equals its UTF-8 encoding). -/
def asciiBytes (s : String) : List Nat := s.data.map Char.toNat

/-- Big-endian byte encoding on `n` bytes, as produced by `struct.pack`
with formats `!H` (n = 2), `!L` (n = 4) and `!Q` (n = 8).  (`struct.pack`
raises on values that do not fit in the field; the fits-in-range
hypotheses appear on the theorems that rely on the stored value.) -/
def be : Nat → Nat → List Nat
  | 0, _ => []
  | n + 1, v => be n (v / 256) ++ [v % 256]

/-- Numeric value of a big-endian byte list. -/
def beVal (l : List Nat) : Nat := l.foldl (fun a b => a * 256 + b) 0

/-- Byte-string `line.startswith(tok)` (source line 87), pattern first. -/
def startsWithTok : List Nat → List Nat → Bool
  | [], _ => true
  | _ :: _, [] => false
  | p :: ps, b :: bs => p == b && startsWithTok ps bs

/-- A byte string contains `pat` as a contiguous run.  Used only to state
the handshake-rejection claim, which speaks of a line bearing the token. -/
def containsTok (pat : List Nat) : List Nat → Bool
  | [] => startsWithTok pat []
  | b :: bs => startsWithTok pat (b :: bs) || containsTok pat bs

/-- Python byte-string whitespace, as removed by `bytes.strip()`. -/
def isPySpace (b : Nat) : Bool :=
  b == 32 || b == 9 || b == 10 || b == 13 || b == 11 || b == 12

/-- Both-ends whitespace strip, `bytes.strip()` at source line 88. -/
def stripBytes (l : List Nat) : List Nat :=
  ((l.dropWhile isPySpace).reverse.dropWhile isPySpace).reverse

/-- A Python value passed to `encode_bytes`: either a `str` (represented
here by its UTF-8 bytes, which is what `message.encode("utf-8")` at
source line 139 produces) or a `bytes` value. -/
inductive PyPayload where
  | str (s : List Nat)
  | bytes (b : List Nat)
deriving DecidableEq

/-- The raw bytes of a payload (for a `str`, its UTF-8 encoding). -/
def pyBytes : PyPayload → List Nat
  | .str s => s
  | .bytes b => b

/-- First frame byte built at source lines 135-141: fin bit plus
opcode 1 (text) for `str` input, fin bit plus opcode 2 (binary)
otherwise. -/
def frameB1 : PyPayload → Nat
  | .str _ => 0b10000001
  | .bytes _ => 0b10000010

/-- Length field emitted at source lines 146-156: one byte below 126,
marker 126 plus two big-endian bytes below `2 ^ 16 - 1`, otherwise
marker 127 plus eight big-endian bytes. -/
def lenField (length : Nat) : List Nat :=
  if length < 126 then [length]
  else if length < 2 ^ 16 - 1 then 126 :: be 2 length
  else 127 :: be 8 length

/-- Source lines 127-161, `WebSocketServer.encode_bytes`: first control
byte, then the length field, then the payload verbatim. -/
def encode_bytes (message : PyPayload) : List Nat :=
  frameB1 message :: lenField (pyBytes message).length ++ pyBytes message

/-- An application message passed to `encode_message` (source lines
163-187): raw bytes, a `str` (represented by its UTF-8 bytes), or a
structured delta dict with `update` pairs and `delete` keys. -/
inductive Message where
  | bytesMsg (b : List Nat)
  | strMsg (s : List Nat)
  | deltaMsg (update : List (PyPayload × PyPayload)) (delete : List PyPayload)

/-- Flattened delta payload built at source lines 175-185: 4-byte
big-endian count of update pairs, each pair's key and value encoded by
`encode_bytes`, then the 4-byte count of delete keys and each encoded
delete key, in the original order. -/
def flattenDelta (update : List (PyPayload × PyPayload)) (delete : List PyPayload) : List Nat :=
  (be 4 update.length ++ (update.map (fun kv => encode_bytes kv.1 ++ encode_bytes kv.2)).flatten)
    ++ (be 4 delete.length ++ (delete.map encode_bytes).flatten)

/-- Source lines 163-187, `WebSocketServer.encode_message`: bytes pass
through, a `str` is UTF-8 encoded first (so the final `encode_bytes`
call sees a `bytes` value), a delta dict is flattened; the result always
goes through `encode_bytes`. -/
def encode_message : Message → List Nat
  | .bytesMsg b => encode_bytes (.bytes b)
  | .strMsg s => encode_bytes (.bytes s)
  | .deltaMsg upd del => encode_bytes (.bytes (flattenDelta upd del))

/-- Mask-start index computed at source lines 205-210 from the second
header byte: the low 7 bits (`b2 & 0b01111111`, that is `b2 % 128`)
select index 4 for indicator 126, index 10 for indicator 127, and
index 2 otherwise. -/
def idx_first_mask_of (b2 : Nat) : Nat :=
  if b2 % 128 = 126 then 4 else if b2 % 128 = 127 then 10 else 2

/-- Cyclic XOR with `masks[i % 4]` starting at position `i`, with
Python's `masks[i % 4]` lookup modelled as fallible: an out-of-range
index is an uncaught IndexError (source lines 215-220). -/
def unmask (masks : List Nat) : Nat → List Nat → Option (List Nat)
  | _, [] => some []
  | i, b :: bs =>
    if i % 4 < masks.length then
      (unmask masks (i + 1) bs).map (fun t => (b ^^^ masks.getD (i % 4) 0) :: t)
    else none

/-- Total cyclic XOR (defaulted lookup); states what the unmasking loop
computes, and models the client-side masking step of the spec. -/
def xorCycleFrom (masks : List Nat) : Nat → List Nat → List Nat
  | _, [] => []
  | i, b :: bs => (b ^^^ masks.getD (i % 4) 0) :: xorCycleFrom masks (i + 1) bs

/-- Source lines 189-224, `WebSocketServer.decode_message` on the byte
string received from the socket.  `Except.error ()` marks the uncaught
Python exceptions: `struct.unpack` of the two header bytes when fewer
than two bytes are present, and an out-of-range `masks[i % 4]` lookup.
The first header byte is read and its opcode bits discarded (source
lines 201-202), so it does not appear in the computation. -/
def decode_message (message : List Nat) : Except Unit (Option (List Nat)) :=
  if message.length = 0 then Except.ok none
  else if message.length < 2 then Except.error ()
  else
    let b2 := message.getD 1 0
    let idx_first_mask := idx_first_mask_of b2
    let idx_first_data := idx_first_mask + 4
    let masks := (message.drop idx_first_mask).take 4
    match unmask masks 0 (message.drop idx_first_data) with
    | none => Except.error ()
    | some decoded_bytes =>
      if decoded_bytes = [0x03, 0xE9] then Except.ok none
      else Except.ok (some decoded_bytes)

/-- The cyclically unmasked bytes following the mask slice, as a total
function of the input: what `decode_message` computes before its
close-sentinel test. -/
def rawPayload (message : List Nat) : List Nat :=
  xorCycleFrom ((message.drop (idx_first_mask_of (message.getD 1 0))).take 4) 0
    (message.drop (idx_first_mask_of (message.getD 1 0) + 4))

/-- Client-style masking step, following the spec's words: set the mask
bit of the second header byte, insert the four mask bytes right after
the length field, and XOR the payload with the cyclically repeated
mask. -/
def clientMask (frame mask : List Nat) : List Nat :=
  (frame.take (idx_first_mask_of (frame.getD 1 0))).set 1
      (Nat.lor (frame.getD 1 0) 0b10000000)
    ++ mask
    ++ xorCycleFrom mask 0 (frame.drop (idx_first_mask_of (frame.getD 1 0)))

/-- Source line 36, the fixed WebSocket GUID constant. -/
def MAGIC : List Nat := asciiBytes "258EAFA5-E914-47DA-95CA-C5AB0DC85B11"

/-- Source line 43, the fixed HTTP 400 reject response. -/
def STR_REJECT : List Nat := asciiBytes "HTTP/1.1 400 Bad Request\r\n\r\n"

/-- Source lines 37-42: the HTTP 101 response template up to the point
where the accept token is spliced in. -/
def STR_HANDSHAKE_PRE : List Nat :=
  asciiBytes "HTTP/1.1 101 Web Socket Protocol Handshake\r\nUpgrade: websocket\r\nConnection: Upgrade\r\nSec-WebSocket-Accept: "

/-- The rendered 101 response: the template with the accept token
spliced in, ended by the blank-line terminator. -/
def handshakeResponse (accept : List Nat) : List Nat :=
  STR_HANDSHAKE_PRE ++ accept ++ asciiBytes "\r\n\r\n"

/-- Source line 87: the header token searched for with `startswith`. -/
def KEY_TOKEN : List Nat := asciiBytes "Sec-WebSocket-Key"

/-- Source lines 86-89: the first request line starting with the key
token, if any. -/
def findKeyLine (lines : List (List Nat)) : Option (List Nat) :=
  lines.find? (fun l => startsWithTok KEY_TOKEN l)

/-- Source line 88: `line[line.index(b":") + 1:].strip()`. `none` models
the ValueError raised by `.index` when the line has no colon byte. -/
def extractKeyFromLine (line : List Nat) : Option (List Nat) :=
  (line.findIdx? (fun b => b == 58)).map (fun i => stripBytes (line.drop (i + 1)))

/-- Observable actions of one `handle_client` session
(source lines 77-125). -/
inductive Ev where
  | send (data : List Nat)
  | connectCb
  | regAdd
  | messageCb (m : Option (List Nat))
  | regRemove
  | close
deriving DecidableEq

/-- How a session run ends: `rejected` after a failed handshake,
`finished` through the normal break-and-cleanup path, `blocked` when the
supplied receive trace runs out while the loop would keep reading, and
`aborted` when an uncaught exception ends the thread. -/
inductive Outcome where
  | rejected
  | finished
  | blocked
  | aborted
deriving DecidableEq

/-- Source lines 109-119: the receive loop, driven by a finite trace of
`recv` results; `Except.error ()` is a raised `recv`, caught and retried
by the bare `except: continue`.  `mcb` records whether a message
callback was supplied.  A decode exception is uncaught and aborts the
session before any callback of that iteration. -/
def runLoop (mcb : Bool) : List (Except Unit (List Nat)) → List Ev × Outcome
  | [] => ([], .blocked)
  | .error _ :: rest => runLoop mcb rest
  | .ok m :: rest =>
    match decode_message m with
    | .error _ => ([], .aborted)
    | .ok d =>
      let evs := if mcb then [Ev.messageCb d] else []
      match d with
      | none => (evs, .finished)
      | some _ => (evs ++ (runLoop mcb rest).1, (runLoop mcb rest).2)

/-- Source lines 77-125, `WebSocketServer.handle_client`, as the event
trace of one session.  The standard-library SHA-1 digest and base64
encoder are taken as parameters of the embedding (`sha1fn`, `b64fn`);
`ccb` and `mcb` record whether the connect and message callbacks were
supplied; `lines` are the lines of the initial request and `recvs` the
subsequent `recv` results. -/
def handle_client (sha1fn b64fn : List Nat → List Nat) (ccb mcb : Bool)
    (lines : List (List Nat)) (recvs : List (Except Unit (List Nat))) :
    List Ev × Outcome :=
  match findKeyLine lines with
  | none => ([Ev.send STR_REJECT], .rejected)
  | some line =>
    match extractKeyFromLine line with
    | none => ([], .aborted)
    | some client_key =>
      let accept_key := b64fn (sha1fn (client_key ++ MAGIC))
      let pre := Ev.send (handshakeResponse accept_key)
        :: (if ccb then [Ev.connectCb] else []) ++ [Ev.regAdd]
      match runLoop mcb recvs with
      | (loopEvs, .finished) => (pre ++ loopEvs ++ [Ev.regRemove, Ev.close], .finished)
      | (loopEvs, oc) => (pre ++ loopEvs, oc)

/-- Whether the connection is in the client registry after the first `i`
events of a session trace. -/
def inRegistryAt (evs : List Ev) (i : Nat) : Bool :=
  decide (Ev.regAdd ∈ evs.take i) && !decide (Ev.regRemove ∈ evs.take i)

/-- Parser for one `encode_bytes` field, following the spec's words for
the flattened delta layout: skip the control byte, read the one-byte
length or the marker (126 or 127) with its extended big-endian length,
then split off that many content bytes. -/
def parseField : List Nat → Option (List Nat × List Nat)
  | [] => none
  | _ :: rest =>
    match rest with
    | [] => none
    | l :: rest2 =>
      if l < 126 then
        if rest2.length < l then none
        else some (rest2.take l, rest2.drop l)
      else if l = 126 then
        if rest2.length < 2 then none
        else
          let len := beVal (rest2.take 2)
          if (rest2.drop 2).length < len then none
          else some ((rest2.drop 2).take len, (rest2.drop 2).drop len)
      else
        if rest2.length < 8 then none
        else
          let len := beVal (rest2.take 8)
          if (rest2.drop 8).length < len then none
          else some ((rest2.drop 8).take len, (rest2.drop 8).drop len)

/-- Parse `n` consecutive fields. -/
def parseFields : Nat → List Nat → Option (List (List Nat) × List Nat)
  | 0, rest => some ([], rest)
  | n + 1, rest =>
    match parseField rest with
    | none => none
    | some (f, r) =>
      match parseFields n r with
      | none => none
      | some (fs, r2) => some (f :: fs, r2)

/-- Parse `n` consecutive key-value field pairs. -/
def parsePairs : Nat → List Nat → Option (List (List Nat × List Nat) × List Nat)
  | 0, rest => some ([], rest)
  | n + 1, rest =>
    match parseField rest with
    | none => none
    | some (k, r1) =>
      match parseField r1 with
      | none => none
      | some (v, r2) =>
        match parsePairs n r2 with
        | none => none
        | some (ps, r3) => some ((k, v) :: ps, r3)

/-- Parser for the whole flattened delta layout, following the spec's
words: 4-byte big-endian count of update pairs, the pairs, 4-byte count
of delete keys, the delete keys, with nothing left over. -/
def parseDelta (payload : List Nat) : Option (List (List Nat × List Nat) × List (List Nat)) :=
  if payload.length < 4 then none
  else
    match parsePairs (beVal (payload.take 4)) (payload.drop 4) with
    | none => none
    | some (ps, r1) =>
      if r1.length < 4 then none
      else
        match parseFields (beVal (r1.take 4)) (r1.drop 4) with
        | none => none
        | some (ds, r2) => if r2 = [] then some (ps, ds) else none

/-! Helper lemmas about the byte-level building blocks. -/

theorem be_length (n v : Nat) : (be n v).length = n := by
  induction n generalizing v with
  | zero => rfl
  | succ n ih => simp [be, ih]

theorem beVal_append (l : List Nat) (b : Nat) : beVal (l ++ [b]) = beVal l * 256 + b := by
  simp [beVal, List.foldl_append]

theorem beVal_be (n v : Nat) (h : v < 256 ^ n) : beVal (be n v) = v := by
  induction n generalizing v with
  | zero => simp [be, beVal]; omega
  | succ n ih =>
    have h2 : v / 256 < 256 ^ n := by
      rw [Nat.div_lt_iff_lt_mul (by norm_num)]
      calc v < 256 ^ (n + 1) := h
        _ = 256 ^ n * 256 := by ring
    rw [be, beVal_append, ih _ h2]
    omega

theorem xorCycleFrom_length (masks : List Nat) (i : Nat) (l : List Nat) :
    (xorCycleFrom masks i l).length = l.length := by
  induction l generalizing i with
  | nil => rfl
  | cons b bs ih => simp [xorCycleFrom, ih]

theorem xorCycleFrom_involutive (masks : List Nat) (i : Nat) (l : List Nat) :
    xorCycleFrom masks i (xorCycleFrom masks i l) = l := by
  induction l generalizing i with
  | nil => rfl
  | cons b bs ih =>
    simp [xorCycleFrom, ih, Nat.xor_assoc, Nat.xor_self, Nat.xor_zero]

theorem unmask_eq (masks : List Nat) (hm : masks.length = 4) (i : Nat) (l : List Nat) :
    unmask masks i l = some (xorCycleFrom masks i l) := by
  induction l generalizing i with
  | nil => rfl
  | cons b bs ih =>
    rw [unmask, if_pos (by rw [hm]; exact Nat.mod_lt _ (by norm_num)), ih, xorCycleFrom]
    rfl

theorem idx_first_mask_ge_two (b2 : Nat) : 2 ≤ idx_first_mask_of b2 := by
  unfold idx_first_mask_of
  split
  · norm_num
  · split <;> norm_num

theorem idx_first_mask_cases (b2 : Nat) :
    idx_first_mask_of b2 = 2 ∨ idx_first_mask_of b2 = 4 ∨ idx_first_mask_of b2 = 10 := by
  unfold idx_first_mask_of
  split
  · exact Or.inr (Or.inl rfl)
  · split
    · exact Or.inr (Or.inr rfl)
    · exact Or.inl rfl

theorem idx_first_mask_add128 (b2 : Nat) :
    idx_first_mask_of (128 + b2) = idx_first_mask_of b2 := by
  unfold idx_first_mask_of
  rw [Nat.add_mod_left]

theorem lor_128 : ∀ b, b < 128 → Nat.lor b 128 = 128 + b := by decide

/-- What `decode_message` does on every input long enough for the header
unpack: it returns the cyclically unmasked suffix, with the close
sentinel mapped to `none`. -/
theorem decode_spec (m : List Nat) (h : 2 ≤ m.length) :
    decode_message m
      = Except.ok (if rawPayload m = [0x03, 0xE9] then none
                   else some (rawPayload m)) := by
  have hun : unmask ((m.drop (idx_first_mask_of (m.getD 1 0))).take 4) 0
      (m.drop (idx_first_mask_of (m.getD 1 0) + 4)) = some (rawPayload m) := by
    cases hp : m.drop (idx_first_mask_of (m.getD 1 0) + 4) with
    | nil => rw [rawPayload, hp]; rfl
    | cons x xs =>
      have hlt : idx_first_mask_of (m.getD 1 0) + 4 < m.length := by
        by_contra hc
        rw [List.drop_eq_nil_of_le (by omega)] at hp
        exact List.noConfusion hp
      have h4 : ((m.drop (idx_first_mask_of (m.getD 1 0))).take 4).length = 4 := by
        rw [List.length_take, List.length_drop]
        omega
      rw [unmask_eq _ h4, rawPayload, hp]
  rw [decode_message, if_neg (by omega), if_neg (by omega)]
  simp only [hun]
  split <;> rfl

/-- Decoding a well-formed masked frame: any header whose length-field
tier matches its own length, followed by a 4-byte mask and the masked
payload, decodes to the unmasked payload (or the close sentinel). -/
theorem decode_frame (H mask payload : List Nat) (h2 : 2 ≤ H.length)
    (hH : idx_first_mask_of (H.getD 1 0) = H.length) (hm : mask.length = 4) :
    decode_message (H ++ (mask ++ xorCycleFrom mask 0 payload))
      = Except.ok (if payload = [0x03, 0xE9] then none else some payload) := by
  have hlen : (H ++ (mask ++ xorCycleFrom mask 0 payload)).length
      = H.length + (4 + payload.length) := by
    simp [xorCycleFrom_length, hm]
  have hget : (H ++ (mask ++ xorCycleFrom mask 0 payload)).getD 1 0 = H.getD 1 0 :=
    List.getD_append _ _ _ _ (by omega)
  have hdropH : (H ++ (mask ++ xorCycleFrom mask 0 payload)).drop H.length
      = mask ++ xorCycleFrom mask 0 payload := List.drop_left _ _
  have hdropH4 : (H ++ (mask ++ xorCycleFrom mask 0 payload)).drop (H.length + 4)
      = xorCycleFrom mask 0 payload := by
    rw [← List.append_assoc]
    exact List.drop_left' (by simp [hm])
  have hraw : rawPayload (H ++ (mask ++ xorCycleFrom mask 0 payload)) = payload := by
    rw [rawPayload, hget, hH, hdropH, hdropH4, List.take_left' hm,
      xorCycleFrom_involutive]
  rw [decode_spec _ (by omega), hraw]

/-- Decoding the client-masked form of a frame whose header is a control
byte, a tier byte below 128 and the matching extended-length bytes. -/
theorem decode_clientMask_frame (b1 t : Nat) (ext msg mask : List Nat)
    (ht : t < 128) (hext : idx_first_mask_of t = 2 + ext.length) (hm : mask.length = 4) :
    decode_message (clientMask (b1 :: t :: (ext ++ msg)) mask)
      = Except.ok (if msg = [0x03, 0xE9] then none else some msg) := by
  have hget : (b1 :: t :: (ext ++ msg)).getD 1 0 = t := rfl
  have htake : (b1 :: t :: (ext ++ msg)).take (2 + ext.length) = b1 :: t :: ext := by
    rw [show 2 + ext.length = ext.length + 2 from by omega]
    simp [List.take_succ_cons, List.take_left]
  have hdrop : (b1 :: t :: (ext ++ msg)).drop (2 + ext.length) = msg := by
    rw [show 2 + ext.length = ext.length + 2 from by omega]
    simp [List.drop_succ_cons, List.drop_left]
  have hset : (b1 :: t :: ext).set 1 (Nat.lor t 128) = b1 :: (128 + t) :: ext := by
    simp [lor_128 t ht]
  have hcm : clientMask (b1 :: t :: (ext ++ msg)) mask
      = (b1 :: (128 + t) :: ext) ++ (mask ++ xorCycleFrom mask 0 msg) := by
    rw [clientMask, hget, hext, htake, hdrop, hset, List.append_assoc]
  rw [hcm]
  refine decode_frame _ _ _ (by simp) ?_ hm
  show idx_first_mask_of (128 + t) = _
  rw [idx_first_mask_add128, hext]
  simp only [List.length_cons]
  omega

/-- Round trip for a single `encode_bytes` frame of either payload kind,
through the client-style masking step, in every length tier. -/
theorem roundtrip_frame (p : PyPayload) (mask : List Nat) (hm : mask.length = 4) :
    decode_message (clientMask (encode_bytes p) mask)
      = Except.ok (if pyBytes p = [0x03, 0xE9] then none else some (pyBytes p)) := by
  rw [encode_bytes, lenField]
  by_cases h1 : (pyBytes p).length < 126
  · rw [if_pos h1]
    rw [show frameB1 p :: [(pyBytes p).length] ++ pyBytes p
        = frameB1 p :: (pyBytes p).length :: ([] ++ pyBytes p) from by simp]
    refine decode_clientMask_frame _ _ _ _ mask (by omega) ?_ hm
    unfold idx_first_mask_of
    rw [Nat.mod_eq_of_lt (by omega), if_neg (by omega), if_neg (by omega)]
    simp
  · by_cases h2 : (pyBytes p).length < 2 ^ 16 - 1
    · rw [if_neg h1, if_pos h2]
      rw [show frameB1 p :: (126 :: be 2 (pyBytes p).length) ++ pyBytes p
          = frameB1 p :: 126 :: (be 2 (pyBytes p).length ++ pyBytes p) from by simp]
      refine decode_clientMask_frame _ _ _ _ mask (by omega) ?_ hm
      rw [be_length]
      decide
    · rw [if_neg h1, if_neg h2]
      rw [show frameB1 p :: (127 :: be 8 (pyBytes p).length) ++ pyBytes p
          = frameB1 p :: 127 :: (be 8 (pyBytes p).length ++ pyBytes p) from by simp]
      refine decode_clientMask_frame _ _ _ _ mask (by omega) ?_ hm
      rw [be_length]
      decide

/-- Decoding depends only on the input length, the second header byte
and the bytes from the mask slice on: the first header byte and the
stored extended-length bytes are never read. -/
theorem decode_congr (m1 m2 : List Nat) (hlen : m1.length = m2.length)
    (hb : m1.getD 1 0 = m2.getD 1 0)
    (hdrop : m1.drop (idx_first_mask_of (m1.getD 1 0))
      = m2.drop (idx_first_mask_of (m2.getD 1 0))) :
    decode_message m1 = decode_message m2 := by
  rcases Nat.lt_or_ge m1.length 2 with h2 | h2
  · have h0 : m1.length = 0 ∨ m1.length = 1 := by omega
    rcases h0 with h0 | h0
    · rw [List.length_eq_zero.mp h0, List.length_eq_zero.mp (by omega : m2.length = 0)]
    · obtain ⟨a, ha⟩ := List.length_eq_one.mp h0
      obtain ⟨b, hb2⟩ := List.length_eq_one.mp (by omega : m2.length = 1)
      rw [ha, hb2]
      simp [decode_message]
  · rw [hb] at hdrop
    have e1 : m1.drop (idx_first_mask_of (m2.getD 1 0) + 4)
        = (m1.drop (idx_first_mask_of (m2.getD 1 0))).drop 4 := by
      rw [List.drop_drop]
    have e2 : m2.drop (idx_first_mask_of (m2.getD 1 0) + 4)
        = (m2.drop (idx_first_mask_of (m2.getD 1 0))).drop 4 := by
      rw [List.drop_drop]
    have hraw : rawPayload m1 = rawPayload m2 := by
      rw [rawPayload, rawPayload, hb, e1, e2, hdrop]
    rw [decode_spec _ h2, decode_spec _ (by omega), hraw]

/-- Claim C1 (confirmed): for every text or binary payload `m` with byte
length in 0, 1, 125, 126, 65535 or 65536, encoding `m` with
`encode_message`, applying a client-style masking step to the frame
(any 4-byte mask, mask bit set) and running `decode_message` on the
masked frame bytes reproduces `m` exactly (for text, its UTF-8 bytes),
across all three length-field tiers. -/
theorem roundtrip_mask_decode (m mask : List Nat) (hm : mask.length = 4)
    (hL : m.length = 0 ∨ m.length = 1 ∨ m.length = 125 ∨ m.length = 126
      ∨ m.length = 65535 ∨ m.length = 65536) :
    decode_message (clientMask (encode_message (.strMsg m)) mask) = Except.ok (some m)
    ∧ decode_message (clientMask (encode_message (.bytesMsg m)) mask)
      = Except.ok (some m) := by
  have hne : m ≠ [0x03, 0xE9] := by
    intro hEq
    rw [hEq] at hL
    simp at hL
  have hrt := roundtrip_frame (.bytes m) mask hm
  simp only [pyBytes] at hrt
  rw [if_neg hne] at hrt
  exact ⟨hrt, hrt⟩

/-- Concrete instance of the round-trip theorem: one-byte payload,
nontrivial mask. -/
theorem roundtrip_mask_decode_witness :
    decode_message (clientMask (encode_message (.strMsg [72])) [1, 2, 3, 4])
      = Except.ok (some [72])
    ∧ decode_message (clientMask (encode_message (.bytesMsg [72])) [1, 2, 3, 4])
      = Except.ok (some [72]) :=
  roundtrip_mask_decode [72] [1, 2, 3, 4] (by decide) (by decide)

/-- A block of `n` zero bytes, for concrete large payload instances. -/
def zeros (n : Nat) : List Nat := List.replicate n 0

theorem zeros_length (n : Nat) : (zeros n).length = n := List.length_replicate n 0

/-- Claim C2 counterexample: a payload of length 65535 — representable
in 16 bits, so the claim requires marker byte 126 — is encoded with
marker byte 127 and the 8-byte length field, because the source guard
reads `length < 2 ** 16 - 1`. -/
theorem encode_tier_boundary_cex :
    (zeros 65535).length = 65535
    ∧ (encode_bytes (.bytes (zeros 65535))).take 2 = [0b10000010, 127] := by
  refine ⟨zeros_length _, ?_⟩
  have hlen : (pyBytes (.bytes (zeros 65535))).length = 65535 := zeros_length _
  rw [encode_bytes, lenField, hlen, if_neg (by omega), if_neg (by norm_num)]
  rfl

/-- Claim C2 (amended): the three-tier rule with the boundary the code
actually implements — one length byte below 126, marker 126 with the
2-byte big-endian length for 126 up to 65534, and marker 127 with the
8-byte big-endian length from 65535 on. -/
theorem encode_length_tiers (p : PyPayload) :
    ((pyBytes p).length < 126 →
      encode_bytes p = frameB1 p :: (pyBytes p).length :: pyBytes p)
    ∧ (126 ≤ (pyBytes p).length → (pyBytes p).length ≤ 65534 →
      encode_bytes p = frameB1 p :: 126 :: (be 2 (pyBytes p).length ++ pyBytes p))
    ∧ (65535 ≤ (pyBytes p).length →
      encode_bytes p = frameB1 p :: 127 :: (be 8 (pyBytes p).length ++ pyBytes p)) := by
  have e16 : (2 : Nat) ^ 16 - 1 = 65535 := by norm_num
  refine ⟨fun h1 => ?_, fun h1 h2 => ?_, fun h1 => ?_⟩
  · rw [encode_bytes, lenField, if_pos h1]
    rfl
  · rw [encode_bytes, lenField, if_neg (by omega), if_pos (by rw [e16]; omega)]
    rfl
  · rw [encode_bytes, lenField, if_neg (by omega), if_neg (by rw [e16]; omega)]
    rfl

/-- Concrete instances of the amended tier rule, one per tier. -/
theorem encode_length_tiers_witness :
    encode_bytes (.bytes [7])
      = frameB1 (.bytes [7]) :: (pyBytes (.bytes [7])).length :: pyBytes (.bytes [7])
    ∧ encode_bytes (.bytes (zeros 130))
      = frameB1 (.bytes (zeros 130)) :: 126
        :: (be 2 (pyBytes (.bytes (zeros 130))).length ++ pyBytes (.bytes (zeros 130)))
    ∧ encode_bytes (.bytes (zeros 65535))
      = frameB1 (.bytes (zeros 65535)) :: 127
        :: (be 8 (pyBytes (.bytes (zeros 65535))).length ++ pyBytes (.bytes (zeros 65535))) :=
  ⟨(encode_length_tiers _).1 (by simp [pyBytes]),
   (encode_length_tiers _).2.1 (by simp [pyBytes, zeros_length])
     (by simp [pyBytes, zeros_length]),
   (encode_length_tiers _).2.2 (by simp [pyBytes, zeros_length])⟩

/-- Claim C5 (confirmed): `decode_message` returns the no-message
sentinel exactly for the empty input and for inputs whose fully
unmasked payload equals the two close-status bytes; every other input
that returns yields its unmasked byte sequence unchanged; and the
result never depends on the first header byte, hence not on the opcode
bits. -/
theorem decode_payload_spec (m : List Nat) :
    (decode_message m = Except.ok none ↔ (m = [] ∨ rawPayload m = [0x03, 0xE9]))
    ∧ (2 ≤ m.length → rawPayload m ≠ [0x03, 0xE9] →
        decode_message m = Except.ok (some (rawPayload m)))
    ∧ (∀ b0, decode_message (m.set 0 b0) = decode_message m) := by
  refine ⟨?_, fun h hne => by rw [decode_spec m h, if_neg hne], fun b0 => ?_⟩
  · match m with
    | [] => simp [decode_message, rawPayload]
    | [x] =>
      have hraw : rawPayload [x] = [] := by
        rw [rawPayload, List.drop_eq_nil_of_le
          (by have := idx_first_mask_ge_two (0 : Nat); simp; omega)]
        rfl
      simp [decode_message, hraw]
    | x :: y :: t =>
      rw [decode_spec _ (by simp)]
      by_cases hs : rawPayload (x :: y :: t) = [0x03, 0xE9]
      · simp [hs]
      · simp [hs]
  · match m with
    | [] => rfl
    | a :: t =>
      rw [List.set_cons_zero]
      refine decode_congr (b0 :: t) (a :: t) (by simp) rfl ?_
      have hk := idx_first_mask_ge_two (t.getD 0 0)
      obtain ⟨j, hj⟩ : ∃ j, idx_first_mask_of (t.getD 0 0) = j + 1 :=
        ⟨idx_first_mask_of (t.getD 0 0) - 1, by omega⟩
      show (b0 :: t).drop (idx_first_mask_of (t.getD 0 0))
        = (a :: t).drop (idx_first_mask_of (t.getD 0 0))
      rw [hj, List.drop_succ_cons, List.drop_succ_cons]

/-- Concrete instances: a data frame returns its unmasked payload, and
a frame unmasking to the close-status bytes returns the sentinel. -/
theorem decode_payload_spec_witness :
    decode_message [0x82, 0x81, 1, 2, 3, 4, 6]
      = Except.ok (some (rawPayload [0x82, 0x81, 1, 2, 3, 4, 6]))
    ∧ decode_message [0x81, 0x82, 0, 0, 0, 0, 0x03, 0xE9] = Except.ok none :=
  ⟨(decode_payload_spec _).2.1 (by decide) (by decide),
   (decode_payload_spec _).1.mpr (Or.inr (by decide))⟩

/-- Claim C9 (confirmed): `decode_message` never reads the numeric value
of the extended length field — the result depends only on the input
length, the second header byte (whose low bits fix the mask position)
and the bytes from the mask on, so two frames differing only in the
first header byte or in the stored extended-length bytes decode to the
same result. -/
theorem decode_ignores_extended_length (m1 m2 : List Nat) (hlen : m1.length = m2.length)
    (hb : m1.getD 1 0 = m2.getD 1 0)
    (hdrop : m1.drop (idx_first_mask_of (m1.getD 1 0))
      = m2.drop (idx_first_mask_of (m2.getD 1 0))) :
    decode_message m1 = decode_message m2 :=
  decode_congr m1 m2 hlen hb hdrop

/-- Concrete instance: two frames in the 126 tier whose stored 16-bit
lengths differ (99 versus 65535) decode identically. -/
theorem decode_ignores_extended_length_witness :
    decode_message [0x82, 126, 0, 99, 1, 2, 3, 4, 6]
      = decode_message [0x82, 126, 255, 255, 1, 2, 3, 4, 6] :=
  decode_ignores_extended_length _ _ (by decide) (by decide) (by decide)

/-- Claim C10 (confirmed): `decode_message` returns the sentinel for the
empty input, hits the uncaught header-unpack failure on every one-byte
input, and never fails on an input of two or more bytes (the mask slice
is full whenever payload bytes exist). -/
theorem decode_short_input_spec :
    decode_message ([] : List Nat) = Except.ok none
    ∧ (∀ b : Nat, decode_message [b] = Except.error ())
    ∧ (∀ m : List Nat, 2 ≤ m.length → decode_message m ≠ Except.error ()) := by
  refine ⟨rfl, fun b => by simp [decode_message], fun m h => ?_⟩
  rw [decode_spec m h]
  split <;> simp

/-- Concrete instances: a one-byte input fails, a two-byte input does
not. -/
theorem decode_short_input_spec_witness :
    decode_message [0x81] = Except.error ()
    ∧ decode_message [0x81, 0] ≠ Except.error () :=
  ⟨decode_short_input_spec.2.1 0x81,
   decode_short_input_spec.2.2 [0x81, 0] (by decide)⟩

/-! Session-level claims: the receive loop and the handshake path. -/

/-- A client close frame: zero mask, payload unmasking to the two
close-status bytes. -/
def sampleCloseFrame : List Nat := [0x82, 0x82, 0, 0, 0, 0, 0x03, 0xE9]

/-- A masked one-byte client data frame decoding to the byte 7. -/
def sampleDataFrame : List Nat := [0x82, 0x81, 0, 0, 0, 0, 7]

/-- Claim C4 counterexample: in the very iteration in which decode
yields the no-message sentinel, the message callback IS invoked — with
the sentinel — before the loop is left, because the source calls the
callback before testing the decode result. -/
theorem sentinel_callback_cex :
    (runLoop true [Except.ok sampleCloseFrame]).1 = [Ev.messageCb none]
    ∧ (runLoop true [Except.ok sampleCloseFrame]).2 = Outcome.finished := by
  constructor <;> rfl

/-- Claim C4 (amended): in each iteration of the Active receive loop the
message callback (when supplied) is invoked exactly once with the decode
result, including the close sentinel; afterwards, if decode yielded no
message the session leaves the loop, otherwise it stays in the loop. -/
theorem loop_step_spec (mcb : Bool) (m : List Nat) (rest : List (Except Unit (List Nat))) :
    (decode_message m = Except.ok none →
      runLoop mcb (Except.ok m :: rest)
        = ((if mcb then [Ev.messageCb none] else []), Outcome.finished))
    ∧ (∀ p, decode_message m = Except.ok (some p) →
      runLoop mcb (Except.ok m :: rest)
        = ((if mcb then [Ev.messageCb (some p)] else []) ++ (runLoop mcb rest).1,
           (runLoop mcb rest).2)) := by
  constructor
  · intro h
    simp only [runLoop, h]
  · intro p h
    simp only [runLoop, h]

/-- Concrete instances of the amended loop-step rule: a sentinel frame
ends the loop after the callback, a data frame keeps it running. -/
theorem loop_step_spec_witness :
    runLoop true [Except.ok sampleCloseFrame] = ([Ev.messageCb none], Outcome.finished)
    ∧ runLoop true [Except.ok sampleDataFrame, Except.ok sampleCloseFrame]
      = ([Ev.messageCb (some [7])] ++ (runLoop true [Except.ok sampleCloseFrame]).1,
         (runLoop true [Except.ok sampleCloseFrame]).2) :=
  ⟨(loop_step_spec true sampleCloseFrame []).1 rfl,
   (loop_step_spec true sampleDataFrame [Except.ok sampleCloseFrame]).2 [7] rfl⟩

/-- The token-bearing test is at least as strong as the startswith test
the source uses: a line that contains the token nowhere cannot start
with it. -/
theorem startsWithTok_of_containsTok_false (pat l : List Nat)
    (h : containsTok pat l = false) : startsWithTok pat l = false := by
  cases l with
  | nil => rw [containsTok] at h; exact h
  | cons b bs =>
    rw [containsTok, Bool.or_eq_false_iff] at h
    exact h.1

/-- Claim C6 (confirmed): a request none of whose lines bears the
Sec-WebSocket-Key token makes the session send exactly the fixed HTTP
400 reject response and stop: no registry mutation, no connect or
message callback, no receive-loop entry. -/
theorem handshake_reject_spec (sha1fn b64fn : List Nat → List Nat) (ccb mcb : Bool)
    (lines : List (List Nat)) (recvs : List (Except Unit (List Nat)))
    (h : ∀ l ∈ lines, containsTok KEY_TOKEN l = false) :
    handle_client sha1fn b64fn ccb mcb lines recvs = ([Ev.send STR_REJECT], Outcome.rejected)
    ∧ Ev.regAdd ∉ (handle_client sha1fn b64fn ccb mcb lines recvs).1
    ∧ Ev.connectCb ∉ (handle_client sha1fn b64fn ccb mcb lines recvs).1
    ∧ (∀ d, Ev.messageCb d ∉ (handle_client sha1fn b64fn ccb mcb lines recvs).1)
    ∧ Ev.regRemove ∉ (handle_client sha1fn b64fn ccb mcb lines recvs).1 := by
  have hfind : findKeyLine lines = none := by
    rw [findKeyLine, List.find?_eq_none]
    intro l hl
    rw [startsWithTok_of_containsTok_false _ _ (h l hl)]
    exact Bool.false_ne_true
  have hmain : handle_client sha1fn b64fn ccb mcb lines recvs
      = ([Ev.send STR_REJECT], Outcome.rejected) := by
    rw [handle_client, hfind]
  refine ⟨hmain, ?_, ?_, ?_, ?_⟩ <;> rw [hmain] <;> simp

/-- Concrete instance: a request without the key token is rejected. -/
theorem handshake_reject_spec_witness :
    handle_client id id true true [asciiBytes "GET / HTTP/1.1", asciiBytes "Host: x"] []
      = ([Ev.send STR_REJECT], Outcome.rejected) :=
  (handshake_reject_spec id id true true
    [asciiBytes "GET / HTTP/1.1", asciiBytes "Host: x"] [] (by decide)).1

/-- Claim C8 (confirmed): when the request has a key-bearing line with
extracted key `key`, the session's first action is to send the fixed
HTTP 101 upgrade response whose Sec-WebSocket-Accept value is the
base64-encoded SHA-1 digest of the key concatenated with the fixed GUID
constant, ended by the blank-line terminator.  The digest and encoder
are the embedding's standard-library parameters `sha1fn` and `b64fn`. -/
theorem handshake_accept_spec (sha1fn b64fn : List Nat → List Nat) (ccb mcb : Bool)
    (lines : List (List Nat)) (recvs : List (Except Unit (List Nat))) (line key : List Nat)
    (hline : findKeyLine lines = some line)
    (hkey : extractKeyFromLine line = some key) :
    (handle_client sha1fn b64fn ccb mcb lines recvs).1.head?
      = some (Ev.send (STR_HANDSHAKE_PRE ++ b64fn (sha1fn (key ++ MAGIC))
          ++ asciiBytes "\r\n\r\n")) := by
  simp only [handle_client, hline, hkey]
  rcases hrl : runLoop mcb recvs with ⟨loopEvs, oc⟩
  cases oc <;> rfl

/-- Concrete instance of the accept-token computation with the digest
and encoder instantiated by the identity. -/
theorem handshake_accept_spec_witness :
    (handle_client id id true true [asciiBytes "Sec-WebSocket-Key: abc"] []).1.head?
      = some (Ev.send (STR_HANDSHAKE_PRE ++ id (id (asciiBytes "abc" ++ MAGIC))
          ++ asciiBytes "\r\n\r\n")) :=
  handshake_accept_spec id id true true [asciiBytes "Sec-WebSocket-Key: abc"] []
    (asciiBytes "Sec-WebSocket-Key: abc") (asciiBytes "abc") rfl rfl

/-- The receive loop emits message-callback events only. -/
theorem runLoop_events (mcb : Bool) (recvs : List (Except Unit (List Nat))) :
    ∀ e ∈ (runLoop mcb recvs).1, ∃ d, e = Ev.messageCb d := by
  induction recvs with
  | nil => intro e he; simp [runLoop] at he
  | cons r rest ih =>
    intro e he
    match r with
    | .error u =>
      rw [show runLoop mcb (.error u :: rest) = runLoop mcb rest from rfl] at he
      exact ih e he
    | .ok m =>
      simp only [runLoop] at he
      cases hd : decode_message m with
      | error u => rw [hd] at he; simp at he
      | ok d =>
        rw [hd] at he
        cases d with
        | none =>
          cases mcb with
          | true => simp at he; exact ⟨none, he⟩
          | false => simp at he
        | some p =>
          cases mcb with
          | true =>
            simp at he
            rcases he with he | he
            · exact ⟨some p, he⟩
            · exact ih e he
          | false =>
            simp at he
            exact ih e he

/-- Registry membership as the two take-prefix membership facts. -/
theorem inRegistryAt_iff (evs : List Ev) (i : Nat) :
    inRegistryAt evs i = true
      ↔ Ev.regAdd ∈ evs.take i ∧ Ev.regRemove ∉ evs.take i := by
  simp [inRegistryAt]

/-- Membership in a take-prefix of a cons cell. -/
theorem mem_take_cons (x a : Ev) (l : List Ev) (i : Nat) :
    x ∈ (a :: l).take i ↔ 1 ≤ i ∧ (x = a ∨ x ∈ l.take (i - 1)) := by
  cases i with
  | zero => simp
  | succ j => simp [List.take_succ_cons]

/-- Membership in a take-prefix of an append splits at the length. -/
theorem mem_take_append (x : Ev) (L M : List Ev) (i : Nat) :
    x ∈ (L ++ M).take i ↔ x ∈ L.take i ∨ x ∈ M.take (i - L.length) := by
  rw [List.take_append_eq_append_take, List.mem_append]

/-- A non-member of a list is in none of its take-prefixes. -/
theorem mem_take_of_not_mem (x : Ev) (L : List Ev) (h : x ∉ L) (i : Nat) :
    x ∈ L.take i ↔ False :=
  ⟨fun hmem => absurd (List.take_subset _ _ hmem) h, False.elim⟩

/-- Claim C3 (amended): in a session whose handshake succeeds, the 101
response is sent first, the connect callback (when supplied) runs next,
and the registry add follows the callback, before any receive-loop
event; the session's further events are the loop's message-callback
events; when the loop finishes normally the trace ends with the
registry remove and the socket close (on an abnormal exit both are
skipped); and the connection is in the registry exactly at the points
from the add on and — when the session finishes normally — before the
remove. -/
theorem session_trace_spec (sha1fn b64fn : List Nat → List Nat) (ccb mcb : Bool)
    (lines : List (List Nat)) (recvs : List (Except Unit (List Nat))) (line key : List Nat)
    (hline : findKeyLine lines = some line)
    (hkey : extractKeyFromLine line = some key) :
    (handle_client sha1fn b64fn ccb mcb lines recvs).1
      = (Ev.send (handshakeResponse (b64fn (sha1fn (key ++ MAGIC))))
          :: (if ccb then [Ev.connectCb] else []) ++ [Ev.regAdd])
        ++ (runLoop mcb recvs).1
        ++ (if (runLoop mcb recvs).2 = Outcome.finished
            then [Ev.regRemove, Ev.close] else [])
    ∧ (handle_client sha1fn b64fn ccb mcb lines recvs).2 = (runLoop mcb recvs).2
    ∧ (∀ i, inRegistryAt (handle_client sha1fn b64fn ccb mcb lines recvs).1 i = true
        ↔ (if ccb then 3 else 2) ≤ i
          ∧ ((runLoop mcb recvs).2 = Outcome.finished →
              i + 2 ≤ (handle_client sha1fn b64fn ccb mcb lines recvs).1.length)) := by
  have hml := runLoop_events mcb recvs
  rcases hrl : runLoop mcb recvs with ⟨loopEvs, oc⟩
  rw [hrl] at hml
  have hAddLoop : Ev.regAdd ∉ loopEvs := by
    intro hmem
    rcases hml _ hmem with ⟨d, hd⟩
    exact Ev.noConfusion hd
  have hRemLoop : Ev.regRemove ∉ loopEvs := by
    intro hmem
    rcases hml _ hmem with ⟨d, hd⟩
    exact Ev.noConfusion hd
  have htr : handle_client sha1fn b64fn ccb mcb lines recvs
      = ((Ev.send (handshakeResponse (b64fn (sha1fn (key ++ MAGIC))))
          :: (if ccb then [Ev.connectCb] else []) ++ [Ev.regAdd])
        ++ loopEvs
        ++ (if oc = Outcome.finished then [Ev.regRemove, Ev.close] else []), oc) := by
    simp only [handle_client, hline, hkey, hrl]
    cases oc <;> simp
  rw [htr]
  refine ⟨by simp, by simp, ?_⟩
  intro i
  rw [inRegistryAt_iff]
  cases ccb <;> rcases hoc : oc <;>
    simp only [if_true, if_false, Bool.false_eq_true, List.cons_append, List.nil_append,
      List.append_assoc] <;>
    simp only [mem_take_cons, mem_take_append, mem_take_of_not_mem _ _ hAddLoop,
      mem_take_of_not_mem _ _ hRemLoop, List.take_nil, List.not_mem_nil,
      List.length_append, List.length_cons, List.length_nil] <;>
    simp <;>
    omega

/-- Claim C3 counterexample: a complete successful session run; its
first two events are the 101 send and the connect callback, so two
events in the handshake has succeeded and the receive loop has not yet
started — let alone exited — yet the connection is not in the registry,
because the source appends it to the client list only after the connect
callback returns. -/
theorem registry_window_cex :
    (handle_client id id true true [asciiBytes "Sec-WebSocket-Key: abc"]
        [Except.ok sampleCloseFrame]).1
      = [Ev.send (handshakeResponse (asciiBytes "abc" ++ MAGIC)), Ev.connectCb, Ev.regAdd,
         Ev.messageCb none, Ev.regRemove, Ev.close]
    ∧ (handle_client id id true true [asciiBytes "Sec-WebSocket-Key: abc"]
        [Except.ok sampleCloseFrame]).1.take 2
      = [Ev.send (handshakeResponse (asciiBytes "abc" ++ MAGIC)), Ev.connectCb]
    ∧ inRegistryAt (handle_client id id true true [asciiBytes "Sec-WebSocket-Key: abc"]
        [Except.ok sampleCloseFrame]).1 2 = false := by
  refine ⟨rfl, rfl, rfl⟩

/-- Concrete instance of the amended session-trace theorem: outcome
propagation and the registry formula at the point right after the add. -/
theorem session_trace_spec_witness :
    (handle_client id id true true [asciiBytes "Sec-WebSocket-Key: abc"]
        [Except.ok sampleCloseFrame]).2
      = (runLoop true [Except.ok sampleCloseFrame]).2
    ∧ (inRegistryAt (handle_client id id true true [asciiBytes "Sec-WebSocket-Key: abc"]
          [Except.ok sampleCloseFrame]).1 3 = true
        ↔ 3 ≤ 3
          ∧ ((runLoop true [Except.ok sampleCloseFrame]).2 = Outcome.finished →
              3 + 2 ≤ (handle_client id id true true [asciiBytes "Sec-WebSocket-Key: abc"]
                [Except.ok sampleCloseFrame]).1.length)) :=
  ⟨(session_trace_spec id id true true [asciiBytes "Sec-WebSocket-Key: abc"]
      [Except.ok sampleCloseFrame] (asciiBytes "Sec-WebSocket-Key: abc")
      (asciiBytes "abc") rfl rfl).2.1,
   (session_trace_spec id id true true [asciiBytes "Sec-WebSocket-Key: abc"]
      [Except.ok sampleCloseFrame] (asciiBytes "Sec-WebSocket-Key: abc")
      (asciiBytes "abc") rfl rfl).2.2 3⟩

/-! Structured delta layout: parser correctness. -/

/-- The spec-side field parser inverts one `encode_bytes` field, in
every length tier, leaving the remaining bytes intact. -/
theorem parseField_encode (p : PyPayload) (rest : List Nat)
    (h : (pyBytes p).length < 2 ^ 64) :
    parseField (encode_bytes p ++ rest) = some (pyBytes p, rest) := by
  rw [encode_bytes, lenField]
  by_cases h1 : (pyBytes p).length < 126
  · rw [if_pos h1]
    simp only [List.cons_append, List.singleton_append, List.nil_append, List.append_assoc]
    simp only [parseField, if_pos h1]
    rw [if_neg (by rw [List.length_append]; omega)]
    rw [List.take_left, List.drop_left]
  · by_cases h2 : (pyBytes p).length < 2 ^ 16 - 1
    · rw [if_neg h1, if_pos h2]
      simp only [List.cons_append, List.nil_append, List.append_assoc]
      simp only [parseField]
      rw [if_neg (by decide : ¬(126 : Nat) < 126)]
      rw [if_pos (by trivial)]
      rw [if_neg (by rw [List.length_append, be_length]; omega)]
      rw [List.take_left' (be_length 2 _), List.drop_left' (be_length 2 _)]
      rw [beVal_be 2 _ (by rw [show (256 : Nat) ^ 2 = 2 ^ 16 from by norm_num]; omega)]
      rw [if_neg (by rw [List.length_append]; omega)]
      rw [List.take_left, List.drop_left]
    · rw [if_neg h1, if_neg h2]
      simp only [List.cons_append, List.nil_append, List.append_assoc]
      simp only [parseField]
      rw [if_neg (by decide : ¬(127 : Nat) < 126)]
      rw [if_neg (by decide : ¬(127 : Nat) = 126)]
      rw [if_neg (by rw [List.length_append, be_length]; omega)]
      rw [List.take_left' (be_length 8 _), List.drop_left' (be_length 8 _)]
      rw [beVal_be 8 _ (by rw [show (256 : Nat) ^ 8 = 2 ^ 64 from by norm_num]; omega)]
      rw [if_neg (by rw [List.length_append]; omega)]
      rw [List.take_left, List.drop_left]

/-- The spec-side parser inverts a run of `encode_bytes` fields. -/
theorem parseFields_encode (ks : List PyPayload) (rest : List Nat)
    (h : ∀ k ∈ ks, (pyBytes k).length < 2 ^ 64) :
    parseFields ks.length ((ks.map encode_bytes).flatten ++ rest)
      = some (ks.map pyBytes, rest) := by
  induction ks generalizing rest with
  | nil => rfl
  | cons k ks ih =>
    have h1 := parseField_encode k ((ks.map encode_bytes).flatten ++ rest)
      (h k (by simp))
    have h2 := ih rest (fun x hx => h x (by simp [hx]))
    simp only [List.map_cons, List.flatten_cons, List.length_cons, List.append_assoc,
      parseFields, h1, h2]

/-- The spec-side parser inverts a run of encoded key-value pairs. -/
theorem parsePairs_encode (upd : List (PyPayload × PyPayload)) (rest : List Nat)
    (h : ∀ kv ∈ upd, (pyBytes kv.1).length < 2 ^ 64 ∧ (pyBytes kv.2).length < 2 ^ 64) :
    parsePairs upd.length
        ((upd.map (fun kv => encode_bytes kv.1 ++ encode_bytes kv.2)).flatten ++ rest)
      = some (upd.map (fun kv => (pyBytes kv.1, pyBytes kv.2)), rest) := by
  induction upd generalizing rest with
  | nil => rfl
  | cons kv upd ih =>
    have h1 := parseField_encode kv.1
      (encode_bytes kv.2
        ++ ((upd.map (fun kv => encode_bytes kv.1 ++ encode_bytes kv.2)).flatten ++ rest))
      (h kv (by simp)).1
    have h2 := parseField_encode kv.2
      ((upd.map (fun kv => encode_bytes kv.1 ++ encode_bytes kv.2)).flatten ++ rest)
      (h kv (by simp)).2
    have h3 := ih rest (fun x hx => h x (by simp [hx]))
    simp only [List.map_cons, List.flatten_cons, List.length_cons, List.append_assoc,
      parsePairs, h1, h2, h3]

/-- Claim C7 (confirmed): a delta message is flattened as the 4-byte
big-endian update count, each pair as the `encode_bytes`-framed key and
value, then the 4-byte delete count and each framed delete key, in the
original order; the flattened payload is framed as a single binary
(opcode 2) frame; and parsing the layout back recovers the counts (as
the lengths of the recovered runs) and the exact key and value byte
sequences in order. -/
theorem delta_roundtrip (upd : List (PyPayload × PyPayload)) (del : List PyPayload)
    (hn : upd.length < 2 ^ 32) (hm : del.length < 2 ^ 32)
    (hf : ∀ kv ∈ upd, (pyBytes kv.1).length < 2 ^ 64 ∧ (pyBytes kv.2).length < 2 ^ 64)
    (hd : ∀ k ∈ del, (pyBytes k).length < 2 ^ 64) :
    encode_message (.deltaMsg upd del)
      = 0b10000010 :: lenField (flattenDelta upd del).length ++ flattenDelta upd del
    ∧ parseDelta (flattenDelta upd del)
      = some (upd.map (fun kv => (pyBytes kv.1, pyBytes kv.2)), del.map pyBytes)
    ∧ (upd.map (fun kv => (pyBytes kv.1, pyBytes kv.2))).length = upd.length
    ∧ (del.map pyBytes).length = del.length := by
  refine ⟨rfl, ?_, by simp, by simp⟩
  have h256 : (256 : Nat) ^ 4 = 2 ^ 32 := by norm_num
  have hP := parsePairs_encode upd
    (be 4 del.length ++ (del.map encode_bytes).flatten) hf
  have hF : parseFields del.length ((del.map encode_bytes).flatten ++ [])
      = some (del.map pyBytes, []) := parseFields_encode del [] hd
  rw [List.append_nil] at hF
  rw [flattenDelta, List.append_assoc, parseDelta]
  rw [if_neg (by rw [List.length_append, be_length]; omega)]
  rw [List.take_left' (be_length 4 upd.length), List.drop_left' (be_length 4 upd.length)]
  rw [beVal_be 4 _ (by omega)]
  simp only [hP]
  rw [if_neg (by rw [List.length_append, be_length]; omega)]
  rw [List.take_left' (be_length 4 del.length), List.drop_left' (be_length 4 del.length)]
  rw [beVal_be 4 _ (by omega)]
  simp only [hF]
  simp

/-- Concrete instance matching the spec's example: two update pairs and
one delete key survive the flatten-and-parse round trip in order. -/
theorem delta_roundtrip_witness :
    parseDelta (flattenDelta
        [(.str (asciiBytes "k1"), .bytes [1, 2]), (.str (asciiBytes "k2"), .bytes [3])]
        [.str (asciiBytes "k3")])
      = some (([(.str (asciiBytes "k1"), .bytes [1, 2]),
            (.str (asciiBytes "k2"), .bytes [3])] : List (PyPayload × PyPayload)).map
            (fun kv => (pyBytes kv.1, pyBytes kv.2)),
          ([.str (asciiBytes "k3")] : List PyPayload).map pyBytes) :=
  (delta_roundtrip
    [(.str (asciiBytes "k1"), .bytes [1, 2]), (.str (asciiBytes "k2"), .bytes [3])]
    [.str (asciiBytes "k3")]
    (by decide) (by decide) (by decide) (by decide)).2.1

end WS
